import Mathlib

/-!
Shallow embedding of `torchtitan/checkpoint.py` (the distributed
checkpoint coordinator `CheckpointManager`) and proofs of the claims of the
spec about it.

Modelling conventions:
* Time: `time.monotonic()` readings are idealised as integers; every
  reading the source makes is an explicit input of the operation
  (`now` at the interval check on line 103, `now2` for the
  `self.reset()` stamp on line 134).
* Python `dict` objects are association lists (`Dict`) with
  insertion-order-preserving overwrite-or-append semantics
  (`dictInsert`), matching `dict.update` / dict literals.
* Tensors have identity: `self.doit = torch.tensor(int(doit))`
  allocates a fresh cell in a tensor store (`tstore`), and the
  asynchronous `dist.all_reduce(self.doit, ..., async_op=True)` keeps
  the *index* of the tensor it was started on (`work`).  `wait()`
  adds the contribution of the other workers (`othersSum`, an input
  of the model) into that cell in place, exactly like the in-place sum
  reduction.  This keeps the aliasing behaviour of the source: line 104
  rebinds `self.doit` to a fresh tensor before any `wait()`, so
  `self.doit.item()` on line 111 reads the fresh tensor, not the one
  the reduction wrote to.
* The external persistence engine (`dcp.save` / `dcp.load`) is out of
  scope per the spec; its invocations are recorded as effects in the
  results (`persisted` / `restored`), carrying the exact mapping and
  checkpoint id passed to it.
* The filesystem consumed by `load` is a value `FS`: the set of
  existing directories plus the listing of the checkpoint folder.
-/

/-- Python `dict` keyed by strings: association list, unique keys by
construction of the operations below. -/
abbrev Dict (V : Type) := List (String × V)

/-- Lookup `d[k]`: first binding wins (keys are unique under `dictInsert`). -/
def dictLookup {V : Type} (d : Dict V) (k : String) : Option V :=
  match d with
  | [] => none
  | (k2, v) :: rest => if k2 = k then some v else dictLookup rest k

/-- Assignment `d[k] = v`, one entry of `d.update(...)`: overwrite in place if the
key is present, append otherwise (Python dict semantics). -/
def dictInsert {V : Type} (d : Dict V) (k : String) (v : V) : Dict V :=
  match d with
  | [] => [(k, v)]
  | (k2, v2) :: rest =>
    if k2 = k then (k, v) :: rest else (k2, v2) :: dictInsert rest k v

/-- The `enum.Enum` `IntervalType` (checkpoint.py lines 23-25). -/
inductive IntervalType where
  | SECONDS : IntervalType
  | STEPS : IntervalType
  deriving DecidableEq, Repr

/-- A value of the state registry.  `ModelWrapper` / `OptimizerWrapper`
are the adapters built in `__init__` (lines 28-48); `aux` stands for a
caller-supplied auxiliary entry (opaque payload). -/
inductive Entry where
  | ModelWrapper : Entry
  | OptimizerWrapper : Entry
  | aux : Nat → Entry
  deriving DecidableEq, Repr

/-- The mutable state of a `CheckpointManager` (lines 51-76).
`tstore` is the tensor store; `work` and `doit` hold tensor indices
(`None` = `none`). -/
structure CMState where
  folder : String
  states : Dict Entry
  model_weights_only : Bool
  interval_type : IntervalType
  interval : Int
  begin : Int
  tstore : List Int
  work : Option Nat
  doit : Option Nat
  deriving DecidableEq, Repr

/-- Embedding of `CheckpointManager.__init__` (lines 52-76): the caller `states`
dict gets `model` and `optimizer` inserted (line 65-70, `dict.update`
with the literal in that order), `begin = 0` (line 73), `work = None`,
`doit = None`. -/
def initCM (states : Dict Entry) (folder : String)
    (interval_type : IntervalType) (interval : Int)
    (model_weights_only : Bool) : CMState :=
  { folder := folder
    states := dictInsert (dictInsert states "model" Entry.ModelWrapper)
      "optimizer" Entry.OptimizerWrapper
    model_weights_only := model_weights_only
    interval_type := interval_type
    interval := interval
    begin := 0
    tstore := []
    work := none
    doit := none }

/-- Embedding of `CheckpointManager.reset` (lines 83-84): stamp `begin` with the
current monotonic reading. -/
def reset (cm : CMState) (now : Int) : CMState :=
  { cm with begin := now }

/-- Embedding of `os.path.join(a, b)` for the shapes used here: empty left side
yields the right side; a separator is added unless already present. -/
def osPathJoin (a b : String) : String :=
  if a = "" then b
  else if a.toList.getLast? = some '/' then a ++ b
  else a ++ "/" ++ b

/-- Embedding of `CheckpointManager.create_checkpoint_id` (lines 86-87). -/
def create_checkpoint_id (folder : String) (step : Int) : String :=
  osPathJoin folder ("step-" ++ toString step)

/-- The local due check of line 103: `(time.monotonic() - self.begin) >= self.interval`. -/
def localDue (cm : CMState) (now : Int) : Bool :=
  now - cm.begin ≥ cm.interval

/-- The weights-only narrowing of line 129: `{"model": self.states["model"]}`.
The `none` branch is a Python `KeyError`, unreachable after `__init__`
(which always inserts `"model"`). -/
def narrowToModel (d : Dict Entry) : Dict Entry :=
  match dictLookup d "model" with
  | some v => [("model", v)]
  | none => []

/-- Result of one `save` call: the new state plus the observable
effects: `persisted = some (mapping, id)` iff `dcp.save(mapping, id)`
was invoked (line 133); `voteStarted` iff a new `dist.all_reduce` was
issued (line 106); `waited` iff `self.work.wait()` was called (line
109 or 119). -/
structure SaveResult where
  state : CMState
  persisted : Option (Dict Entry × String)
  voteStarted : Bool
  waited : Bool
  deriving DecidableEq, Repr

/-- Lines 118-137 of `save`: drain a stale pending vote (wait on it in
place and discard handle and value), compute `weights_only`, narrow
`self.states` for a weights-only save (line 129 rebinds the registry
to the singleton dict `{"model": self.states["model"]}`), invoke
`dcp.save`, then `self.reset()` at time `now2`.  The `none` branch of
the narrowing is unreachable after `__init__` (Python would raise
`KeyError`). -/
def finishSave (cm : CMState) (curr_step : Int) (force : Bool)
    (othersSum : Int) (now2 : Int) (waitedAlready : Bool) : SaveResult :=
  let drained :=
    match cm.work with
    | some w =>
      { cm with tstore := cm.tstore.set w (cm.tstore.getD w 0 + othersSum)
                work := none
                doit := none }
    | none => cm
  let waitedNow := cm.work.isSome
  let weights_only := force && drained.model_weights_only
  let statesToSave :=
    if weights_only then narrowToModel drained.states else drained.states
  { state := { drained with states := statesToSave, begin := now2 }
    persisted := some (statesToSave, create_checkpoint_id drained.folder curr_step)
    voteStarted := false
    waited := waitedAlready || waitedNow }

/-- Embedding of `CheckpointManager.save` (lines 89-137).  `now` is the
`time.monotonic()` reading of line 103, `othersSum` the sum the other
workers contributed to the pending reduction (applied by `wait()`),
`now2` the reading used by `self.reset()` on line 134. -/
def save (cm : CMState) (curr_step : Int) (force : Bool)
    (now : Int) (othersSum : Int) (now2 : Int) : SaveResult :=
  if cm.folder = "" then
    { state := cm, persisted := none, voteStarted := false, waited := false }
  else if force then
    finishSave cm curr_step force othersSum now2 false
  else
    match cm.interval_type with
    | IntervalType.STEPS =>
      if curr_step % cm.interval == 0 then
        finishSave cm curr_step force othersSum now2 false
      else
        { state := cm, persisted := none, voteStarted := false, waited := false }
    | IntervalType.SECONDS =>
      -- line 103-104: fresh tensor holding int(doit); rebinds self.doit
      let d := localDue cm now
      let doitIdx := cm.tstore.length
      let cm1 := { cm with
        tstore := cm.tstore ++ [if d then (1 : Int) else 0]
        doit := some doitIdx }
      match cm.work with
      | none =>
        -- line 105-107: start the async reduction on the fresh tensor
        { state := { cm1 with work := some doitIdx }
          persisted := none, voteStarted := true, waited := false }
      | some w =>
        if curr_step % 5 == 4 then
          -- lines 108-114: wait writes the reduced sum into the tensor
          -- the vote was started on; self.doit.item() then reads the
          -- tensor rebound on line 104
          let cm2 := { cm1 with
            tstore := cm1.tstore.set w (cm1.tstore.getD w 0 + othersSum)
            work := none }
          let dv : Int := cm2.tstore.getD doitIdx 0
          let cm3 := { cm2 with doit := none }
          if dv == 0 then
            { state := cm3, persisted := none, voteStarted := false, waited := true }
          else
            finishSave cm3 curr_step force othersSum now2 true
        else
          -- line 115-116: backpressure no-op
          { state := cm1, persisted := none, voteStarted := false, waited := false }

/-- The filesystem as `load` observes it: existing directories and the
listing of the checkpoint folder. -/
structure FS where
  dirs : List String
  entries : List String
  deriving DecidableEq, Repr

/-- Result of one `load` call: the (unchanged) coordinator state, the
boolean return value, and `restored = some id` iff `dcp.load(states,
checkpoint_id=id)` was invoked (lines 159-162). -/
structure LoadResult where
  state : CMState
  ret : Bool
  restored : Option String
  deriving DecidableEq, Repr

/-- Value of digit characters accumulated left to right: `int(...)` on
the digit group. -/
def digitsToNat (ds : List Char) : Nat :=
  ds.foldl (fun a c => 10 * a + (c.toNat - 48)) 0

/-- One attempt of `re.search(r"step-(\d+)", s)` at a fixed start
position: the literal `step-` followed by a maximal nonempty digit
run (greedy `\d+`). -/
def matchStepAt : List Char → Option Nat
  | 's' :: 't' :: 'e' :: 'p' :: '-' :: rest =>
    let ds := rest.takeWhile Char.isDigit
    if ds.isEmpty then none else some (digitsToNat ds)
  | _ => none

/-- Scanning loop of `re.search`: first start position (left to right) where
the pattern matches. -/
def searchStep : List Char → Option Nat
  | [] => none
  | c :: rest =>
    match matchStepAt (c :: rest) with
    | some n => some n
    | none => searchStep rest

/-- Embedding of `re.search(r"step-(\d+)", filename)` plus `int(match.group(1))`
(lines 150-152). -/
def findStepNum (s : String) : Option Nat :=
  searchStep s.toList

/-- Embedding of `CheckpointManager.load` (lines 139-166).  The registry is
populated in place by the external `dcp.load`; the coordinator state
itself is unchanged. -/
def load (cm : CMState) (fs : FS) (step : Int) : LoadResult :=
  if cm.folder = "" then
    { state := cm, ret := false, restored := none }
  else if !(fs.dirs.contains cm.folder) then
    { state := cm, ret := false, restored := none }
  else if step != -1 && !(fs.dirs.contains (create_checkpoint_id cm.folder step)) then
    { state := cm, ret := false, restored := none }
  else if step == -1 then
    match fs.entries.filterMap findStepNum with
    | [] => { state := cm, ret := false, restored := none }
    | c :: cs =>
      { state := cm, ret := true
        restored := some (create_checkpoint_id cm.folder (Int.ofNat (cs.foldl max c))) }
  else
    { state := cm, ret := true
      restored := some (create_checkpoint_id cm.folder step) }

namespace RefModel

/-!
A store-passing model of `__init__` (lines 62-70) for the claims about
reference semantics: Python dict objects live in a heap of cells, a
manager holds a *reference* (cell index) to its registry, and
`self.states.update({...})` mutates the referenced cell in place.
-/

/-- Heap of dict objects; a dict reference is an index. -/
structure Heap where
  cells : List (Dict Entry)
  deriving DecidableEq, Repr

/-- Dereference. -/
def Heap.get (h : Heap) (r : Nat) : Dict Entry :=
  h.cells.getD r []

/-- In-place mutation of one cell. -/
def Heap.put (h : Heap) (r : Nat) (d : Dict Entry) : Heap :=
  { cells := h.cells.set r d }

/-- A `CheckpointManager` holding its registry by reference. -/
structure CMRef where
  folder : String
  statesRef : Nat
  model_weights_only : Bool
  interval_type : IntervalType
  interval : Int
  begin : Int
  deriving DecidableEq, Repr

/-- Embedding of `__init__` lines 62-73 with reference semantics:
`self.states = states` retains the caller reference, then `self.states.update(
{"model": ModelWrapper(model), "optimizer": OptimizerWrapper(model,
optimizer)})` mutates the shared cell in place. -/
def initCMRef (h : Heap) (statesRef : Nat) (folder : String)
    (interval_type : IntervalType) (interval : Int)
    (model_weights_only : Bool) : CMRef × Heap :=
  let updated := dictInsert (dictInsert (h.get statesRef) "model" Entry.ModelWrapper)
    "optimizer" Entry.OptimizerWrapper
  ({ folder := folder
     statesRef := statesRef
     model_weights_only := model_weights_only
     interval_type := interval_type
     interval := interval
     begin := 0 },
   h.put statesRef updated)

end RefModel

/-! ### Branch equations for `save` -/

/-- Line 94-95: no folder configured, `save` is a no-op. -/
theorem save_no_folder (cm : CMState) (s : Int) (f : Bool) (now o n2 : Int)
    (h : cm.folder = "") :
    save cm s f now o n2 =
      { state := cm, persisted := none, voteStarted := false, waited := false } := by
  simp [save, h]

/-- Forced call: `force=True` skips lines 97-116 and goes straight to the tail. -/
theorem save_force_eq (cm : CMState) (s : Int) (now o n2 : Int)
    (h : ¬cm.folder = "") :
    save cm s true now o n2 = finishSave cm s true o n2 false := by
  simp [save, h]

/-- STEPS mode, step on the cadence (line 98-100 condition false): fall
through to the tail. -/
theorem save_steps_due (cm : CMState) (s : Int) (now o n2 : Int)
    (h : ¬cm.folder = "") (ht : cm.interval_type = IntervalType.STEPS)
    (hd : s % cm.interval = 0) :
    save cm s false now o n2 = finishSave cm s false o n2 false := by
  simp [save, h, ht, hd]

/-- STEPS mode, step off the cadence: early return (line 101). -/
theorem save_steps_skip (cm : CMState) (s : Int) (now o n2 : Int)
    (h : ¬cm.folder = "") (ht : cm.interval_type = IntervalType.STEPS)
    (hd : ¬s % cm.interval = 0) :
    save cm s false now o n2 =
      { state := cm, persisted := none, voteStarted := false, waited := false } := by
  simp [save, h, ht, hd]

/-- SECONDS mode, no vote outstanding (lines 102-107): allocate the
fresh `doit` tensor, start the reduction on it, return. -/
theorem save_sec_idle (cm : CMState) (s : Int) (now o n2 : Int)
    (h : ¬cm.folder = "") (ht : cm.interval_type = IntervalType.SECONDS)
    (hw : cm.work = none) :
    save cm s false now o n2 =
      { state := { cm with
          tstore := cm.tstore ++ [if localDue cm now then (1 : Int) else 0]
          doit := some cm.tstore.length
          work := some cm.tstore.length }
        persisted := none, voteStarted := true, waited := false } := by
  simp [save, h, ht, hw]

/-- SECONDS mode, vote outstanding, off the 5-call cadence (lines
115-116): only the `doit` rebinding of line 104 happens. -/
theorem save_sec_backpressure (cm : CMState) (s : Int) (now o n2 : Int) (w : Nat)
    (h : ¬cm.folder = "") (ht : cm.interval_type = IntervalType.SECONDS)
    (hw : cm.work = some w) (hc : ¬s % 5 = 4) :
    save cm s false now o n2 =
      { state := { cm with
          tstore := cm.tstore ++ [if localDue cm now then (1 : Int) else 0]
          doit := some cm.tstore.length }
        persisted := none, voteStarted := false, waited := false } := by
  simp [save, h, ht, hw, hc]

/-- SECONDS mode, vote outstanding, on the 5-call cadence (lines
108-114): wait writes the reduced sum into the tensor the vote was
started on; `self.doit.item()` reads the tensor rebound on line 104. -/
theorem save_sec_cadence (cm : CMState) (s : Int) (now o n2 : Int) (w : Nat)
    (h : ¬cm.folder = "") (ht : cm.interval_type = IntervalType.SECONDS)
    (hw : cm.work = some w) (hc : s % 5 = 4) :
    save cm s false now o n2 =
      (if ((cm.tstore ++ [if localDue cm now then (1 : Int) else 0]).set w
            ((cm.tstore ++ [if localDue cm now then (1 : Int) else 0]).getD w 0 + o)).getD
            cm.tstore.length 0 = 0 then
        { state := { cm with
            tstore := (cm.tstore ++ [if localDue cm now then (1 : Int) else 0]).set w
              ((cm.tstore ++ [if localDue cm now then (1 : Int) else 0]).getD w 0 + o)
            work := none, doit := none }
          persisted := none, voteStarted := false, waited := true }
      else
        finishSave { cm with
            tstore := (cm.tstore ++ [if localDue cm now then (1 : Int) else 0]).set w
              ((cm.tstore ++ [if localDue cm now then (1 : Int) else 0]).getD w 0 + o)
            work := none, doit := none } s false o n2 true) := by
  simp only [save, h, ht, hw, hc]
  simp

/-- Unfolded form of the tail (lines 118-137). -/
theorem finishSave_spec (cm : CMState) (s : Int) (f : Bool) (o n2 : Int) (w0 : Bool) :
    finishSave cm s f o n2 w0 =
      { state := { cm with
          states := if f && cm.model_weights_only then narrowToModel cm.states else cm.states
          begin := n2
          tstore := match cm.work with
            | some w => cm.tstore.set w (cm.tstore.getD w 0 + o)
            | none => cm.tstore
          work := none
          doit := if cm.work.isSome then none else cm.doit }
        persisted := some
          ((if f && cm.model_weights_only then narrowToModel cm.states else cm.states),
            create_checkpoint_id cm.folder s)
        voteStarted := false
        waited := w0 || cm.work.isSome } := by
  unfold finishSave
  cases hw : cm.work <;> simp [hw]

/-! ### Helper lemmas on lists and dicts -/

theorem getD_set_self {α : Type} (l : List α) (i : Nat) (a d : α) (h : i < l.length) :
    (l.set i a).getD i d = a := by
  induction l generalizing i with
  | nil => simp at h
  | cons x xs ih =>
    cases i with
    | zero => simp
    | succ j => simpa using ih j (by simpa using h)

theorem getD_set_ne {α : Type} (l : List α) (i j : Nat) (a d : α) (h : i ≠ j) :
    (l.set i a).getD j d = l.getD j d := by
  induction l generalizing i j with
  | nil => simp
  | cons x xs ih =>
    cases i with
    | zero =>
      cases j with
      | zero => exact absurd rfl h
      | succ k => simp
    | succ i2 =>
      cases j with
      | zero => simp
      | succ k => simpa using ih i2 k (by omega)

theorem getD_append_self {α : Type} (l : List α) (a d : α) :
    (l ++ [a]).getD l.length d = a := by
  induction l with
  | nil => simp
  | cons x xs ih => simp [ih]

theorem dictLookup_dictInsert_self {V : Type} (d : Dict V) (k : String) (v : V) :
    dictLookup (dictInsert d k v) k = some v := by
  induction d with
  | nil => simp [dictInsert, dictLookup]
  | cons p rest ih =>
    by_cases h : p.1 = k
    · simp [dictInsert, dictLookup, h]
    · simp [dictInsert, dictLookup, h, ih]

theorem dictLookup_dictInsert_ne {V : Type} (d : Dict V) (k k2 : String) (v : V)
    (h : ¬k = k2) :
    dictLookup (dictInsert d k v) k2 = dictLookup d k2 := by
  induction d with
  | nil => simp [dictInsert, dictLookup, h]
  | cons p rest ih =>
    obtain ⟨pk, pv⟩ := p
    by_cases hp : pk = k
    · subst hp
      simp [dictInsert, dictLookup, h]
    · by_cases hp2 : pk = k2
      · subst hp2
        simp [dictInsert, dictLookup, hp]
      · simp [dictInsert, dictLookup, hp, hp2, ih]

/-- Python `max(xs)` on a nonempty Nat list: it is a member and
an upper bound. -/
theorem foldl_max_spec : ∀ (cs : List Nat) (c : Nat),
    cs.foldl max c ∈ c :: cs ∧ ∀ x ∈ c :: cs, x ≤ cs.foldl max c
  | [], c => by simp
  | y :: ys, c => by
    rcases foldl_max_spec ys (max c y) with ⟨hmem, hub⟩
    rw [List.mem_cons] at hmem
    constructor
    · rw [List.foldl_cons]
      rcases hmem with hmem | hmem
      · rcases max_choice c y with hm | hm
        · rw [hmem, hm]
          exact List.mem_cons_self _ _
        · rw [hmem, hm]
          simp
      · simp [hmem]
    · intro x hx
      rw [List.mem_cons] at hx
      rw [List.foldl_cons]
      rcases hx with hx | hx
      · rw [hx]
        exact le_trans (le_max_left c y) (hub _ (List.mem_cons_self _ _))
      · rw [List.mem_cons] at hx
        rcases hx with hx | hx
        · rw [hx]
          exact le_trans (le_max_right c y) (hub _ (List.mem_cons_self _ _))
        · exact hub x (by simp [hx])

/-! ### Claim theorems -/

/-- C9: the interval clock `begin` is re-stamped to the current time
exactly when a save completes the persistence call (to the
`time.monotonic()` reading `now2` of `self.reset()`) or when `reset`
is explicitly invoked; every `save` call that does not invoke the
persistence engine leaves `begin` unchanged, and `load` never touches
it. -/
theorem C9_begin_restamp :
    (∀ (cm : CMState) (s : Int) (f : Bool) (now o n2 : Int),
      (save cm s f now o n2).state.begin =
        (if (save cm s f now o n2).persisted.isSome then n2 else cm.begin)) ∧
    (∀ (cm : CMState) (t : Int), (reset cm t).begin = t) ∧
    (∀ (cm : CMState) (fs : FS) (st : Int), (load cm fs st).state.begin = cm.begin) := by
  refine ⟨?_, fun cm t => rfl, ?_⟩
  · intro cm s f now o n2
    by_cases hfold : cm.folder = ""
    · rw [save_no_folder cm s f now o n2 hfold]
      simp
    · cases f with
      | true =>
        rw [save_force_eq cm s now o n2 hfold, finishSave_spec]
        simp
      | false =>
        cases ht : cm.interval_type with
        | STEPS =>
          by_cases hd : s % cm.interval = 0
          · rw [save_steps_due cm s now o n2 hfold ht hd, finishSave_spec]
            simp
          · rw [save_steps_skip cm s now o n2 hfold ht hd]
            simp
        | SECONDS =>
          cases hw : cm.work with
          | none =>
            rw [save_sec_idle cm s now o n2 hfold ht hw]
            simp
          | some w =>
            by_cases hc : s % 5 = 4
            · rw [save_sec_cadence cm s now o n2 w hfold ht hw hc]
              split <;> split <;> simp [finishSave_spec]
            · rw [save_sec_backpressure cm s now o n2 w hfold ht hw hc]
              simp
  · intro cm fs st
    unfold load
    split
    · rfl
    · split
      · rfl
      · split
        · rfl
        · split
          · split <;> rfl
          · rfl

/-- C5: in STEPS mode with positive interval and a configured folder,
a non-forced `save s` invokes the persistence engine iff
`s % interval == 0`, and when the step is not due the call is a
complete no-op: the state is returned unchanged and no effect
happens. -/
theorem C5_steps_mode (cm : CMState) (s now o n2 : Int)
    (ht : cm.interval_type = IntervalType.STEPS) (_hk : 0 < cm.interval)
    (hf : ¬cm.folder = "") :
    ((save cm s false now o n2).persisted.isSome = (s % cm.interval == 0)) ∧
    (¬s % cm.interval = 0 →
      save cm s false now o n2 =
        { state := cm, persisted := none, voteStarted := false, waited := false }) := by
  by_cases hd : s % cm.interval = 0
  · rw [save_steps_due cm s now o n2 hf ht hd, finishSave_spec]
    simp [hd]
  · rw [save_steps_skip cm s now o n2 hf ht hd]
    simp [hd]

/-- Witness for C5 at the concrete STEPS-mode coordinator with
interval 3: step 6 is persisted, step 7 is a no-op. -/
theorem C5_steps_mode_witness :
    (initCM [] "ckpt" IntervalType.STEPS 3 false).interval_type = IntervalType.STEPS ∧
    (0 : Int) < (initCM [] "ckpt" IntervalType.STEPS 3 false).interval ∧
    ¬(initCM [] "ckpt" IntervalType.STEPS 3 false).folder = "" ∧
    (save (initCM [] "ckpt" IntervalType.STEPS 3 false) 6 false 0 0 0).persisted.isSome = true ∧
    (save (initCM [] "ckpt" IntervalType.STEPS 3 false) 7 false 0 0 0).persisted.isSome = false := by
  refine ⟨rfl, by decide, by decide, ?_, ?_⟩
  · have h := (C5_steps_mode (initCM [] "ckpt" IntervalType.STEPS 3 false) 6 0 0 0
      rfl (by decide) (by decide)).1
    rw [h]
    decide
  · have h := (C5_steps_mode (initCM [] "ckpt" IntervalType.STEPS 3 false) 7 0 0 0
      rfl (by decide) (by decide)).1
    rw [h]
    decide

/-- C4: a forced save with a configured folder bypasses the interval
policy and vote gate: the persistence engine is invoked
unconditionally with the (possibly narrowed) registry; a pending vote
handle is waited on exactly when one exists, and handle and pending
value are cleared with the aggregated result never influencing the
call. -/
theorem C4_forced_save (cm : CMState) (s now o n2 : Int) (hf : ¬cm.folder = "") :
    (save cm s true now o n2).persisted =
      some ((if cm.model_weights_only then narrowToModel cm.states else cm.states),
        create_checkpoint_id cm.folder s) ∧
    (save cm s true now o n2).voteStarted = false ∧
    (save cm s true now o n2).state.work = none ∧
    (save cm s true now o n2).waited = cm.work.isSome ∧
    (cm.work.isSome = true → (save cm s true now o n2).state.doit = none) := by
  rw [save_force_eq cm s now o n2 hf, finishSave_spec]
  cases hw : cm.work <;> simp [hw]

/-- Witness for C4: forced save on a coordinator with a pending vote
persists, waits, and clears both handle and pending value. -/
theorem C4_forced_save_witness :
    ¬(save (initCM [] "ckpt" IntervalType.SECONDS 10 false) 0 false 5 0 5).state.folder = "" ∧
    (save ((save (initCM [] "ckpt" IntervalType.SECONDS 10 false) 0 false 5 0 5).state)
        9 true 6 3 99).persisted.isSome = true ∧
    (save ((save (initCM [] "ckpt" IntervalType.SECONDS 10 false) 0 false 5 0 5).state)
        9 true 6 3 99).state.work = none := by
  have h := C4_forced_save
    ((save (initCM [] "ckpt" IntervalType.SECONDS 10 false) 0 false 5 0 5).state)
    9 6 3 99 (by decide)
  exact ⟨by decide, by rw [h.1]; rfl, h.2.2.1⟩

/-- C1: while a vote is outstanding (`work` is `some`), a SECONDS-mode
save call that is neither forced nor on the 5-call cadence invokes no
persistence and leaves the pending handle in place; and in any `save`
call whatsoever, a new asynchronous reduction is only started when no
vote was outstanding at entry. -/
theorem C1_single_outstanding_vote :
    (∀ (cm : CMState) (s now o n2 : Int) (w : Nat),
      cm.interval_type = IntervalType.SECONDS → cm.work = some w → ¬s % 5 = 4 →
      (save cm s false now o n2).persisted = none ∧
      (save cm s false now o n2).voteStarted = false ∧
      (save cm s false now o n2).state.work = some w) ∧
    (∀ (cm : CMState) (s : Int) (f : Bool) (now o n2 : Int),
      (save cm s f now o n2).voteStarted = true → cm.work = none) := by
  constructor
  · intro cm s now o n2 w ht hw hc
    by_cases hfold : cm.folder = ""
    · rw [save_no_folder cm s false now o n2 hfold]
      simp [hw]
    · rw [save_sec_backpressure cm s now o n2 w hfold ht hw hc]
      simp [hw]
  · intro cm s f now o n2 hv
    by_cases hfold : cm.folder = ""
    · rw [save_no_folder cm s f now o n2 hfold] at hv
      simp at hv
    · cases f with
      | true =>
        rw [save_force_eq cm s now o n2 hfold, finishSave_spec] at hv
        simp at hv
      | false =>
        cases ht : cm.interval_type with
        | STEPS =>
          by_cases hd : s % cm.interval = 0
          · rw [save_steps_due cm s now o n2 hfold ht hd, finishSave_spec] at hv
            simp at hv
          · rw [save_steps_skip cm s now o n2 hfold ht hd] at hv
            simp at hv
        | SECONDS =>
          cases hw : cm.work with
          | none => rfl
          | some w =>
            by_cases hc : s % 5 = 4
            · rw [save_sec_cadence cm s now o n2 w hfold ht hw hc] at hv
              split at hv <;> split at hv <;> simp [finishSave_spec] at hv
            · rw [save_sec_backpressure cm s now o n2 w hfold ht hw hc] at hv
              simp at hv

/-- Witness for C1: with a vote pending after an IDLE call, the
next call (step 1, off the cadence) is a no-op that keeps the same
pending handle. -/
theorem C1_single_outstanding_vote_witness :
    (save (initCM [] "ckpt" IntervalType.SECONDS 10 false) 0 false 5 0 5).state.interval_type
      = IntervalType.SECONDS ∧
    (save (initCM [] "ckpt" IntervalType.SECONDS 10 false) 0 false 5 0 5).state.work = some 0 ∧
    ¬(1 : Int) % 5 = 4 ∧
    (save ((save (initCM [] "ckpt" IntervalType.SECONDS 10 false) 0 false 5 0 5).state)
        1 false 6 3 6).persisted = none ∧
    (save ((save (initCM [] "ckpt" IntervalType.SECONDS 10 false) 0 false 5 0 5).state)
        1 false 6 3 6).state.work = some 0 := by
  have h := (C1_single_outstanding_vote).1
    ((save (initCM [] "ckpt" IntervalType.SECONDS 10 false) 0 false 5 0 5).state)
    1 6 3 6 0 rfl rfl (by decide)
  exact ⟨rfl, rfl, by decide, h.1, h.2.2⟩

/-- Whenever a `save` call reaches the persistence engine, the mapping
passed is the registry, narrowed to the model entry exactly when
`force and model_weights_only`, and the id is derived from the step. -/
theorem save_persisted_shape (cm : CMState) (s : Int) (f : Bool) (now o n2 : Int)
    (m : Dict Entry) (cid : String)
    (h : (save cm s f now o n2).persisted = some (m, cid)) :
    m = (if f && cm.model_weights_only then narrowToModel cm.states else cm.states) ∧
    cid = create_checkpoint_id cm.folder s := by
  by_cases hfold : cm.folder = ""
  · rw [save_no_folder cm s f now o n2 hfold] at h
    simp at h
  · cases f with
    | true =>
      rw [save_force_eq cm s now o n2 hfold, finishSave_spec] at h
      simp at h
      exact ⟨h.1.symm, h.2.symm⟩
    | false =>
      cases ht : cm.interval_type with
      | STEPS =>
        by_cases hd : s % cm.interval = 0
        · rw [save_steps_due cm s now o n2 hfold ht hd, finishSave_spec] at h
          simp at h
          exact ⟨h.1.symm, h.2.symm⟩
        · rw [save_steps_skip cm s now o n2 hfold ht hd] at h
          simp at h
      | SECONDS =>
        cases hw : cm.work with
        | none =>
          rw [save_sec_idle cm s now o n2 hfold ht hw] at h
          simp at h
        | some w =>
          by_cases hc : s % 5 = 4
          · rw [save_sec_cadence cm s now o n2 w hfold ht hw hc] at h
            split at h <;> split at h <;>
              first
              | (rw [finishSave_spec] at h
                 simp at h
                 exact ⟨by simp [h.1.symm], h.2.symm⟩)
              | simp at h
          · rw [save_sec_backpressure cm s now o n2 w hfold ht hw hc] at h
            simp at h

/-- C2 (amended): in SECONDS mode, whenever fewer than `interval`
seconds have elapsed since the most recent `begin` stamp, the local
due check is false and a non-forced `save` never reaches the
persistence engine (for any state whose pending tensor index, if any,
is a previously allocated tensor); and `reset` followed by the due
check at the same instant is not due for any positive interval.
Before the first reset, `begin` is the constant 0, not the
construction time — see the counterexample. -/
theorem C2_seconds_amended :
    (∀ (cm : CMState) (s now o n2 : Int),
      cm.interval_type = IntervalType.SECONDS →
      now - cm.begin < cm.interval →
      (∀ w, cm.work = some w → w < cm.tstore.length) →
      localDue cm now = false ∧ (save cm s false now o n2).persisted = none) ∧
    (∀ (cm : CMState) (t : Int), 0 < cm.interval → localDue (reset cm t) t = false) := by
  constructor
  · intro cm s now o n2 ht hlt hwb
    have hld : localDue cm now = false := by
      simp only [localDue, ge_iff_le, decide_eq_false_iff_not, not_le]
      omega
    refine ⟨hld, ?_⟩
    by_cases hfold : cm.folder = ""
    · rw [save_no_folder cm s false now o n2 hfold]
    · cases hw : cm.work with
      | none =>
        rw [save_sec_idle cm s now o n2 hfold ht hw]
      | some w =>
        by_cases hc : s % 5 = 4
        · rw [save_sec_cadence cm s now o n2 w hfold ht hw hc]
          have hne : w ≠ cm.tstore.length := Nat.ne_of_lt (hwb w hw)
          have hdv : ((cm.tstore ++ [if localDue cm now then (1 : Int) else 0]).set w
              ((cm.tstore ++ [if localDue cm now then (1 : Int) else 0]).getD w 0 + o)).getD
              cm.tstore.length 0 = 0 := by
            rw [getD_set_ne _ _ _ _ _ hne, getD_append_self]
            simp [hld]
          rw [if_pos hdv]
        · rw [save_sec_backpressure cm s now o n2 w hfold ht hw hc]
  · intro cm t hiv
    simp only [localDue, reset, sub_self, ge_iff_le, decide_eq_false_iff_not, not_le]
    omega

/-- Witness for C2 (amended): the freshly constructed SECONDS
coordinator with interval 10, checked at time 5 (5 < 10 seconds after
the `begin` stamp 0), is not locally due and does not persist; and
`reset` at 42 followed by the check at 42 is not due. -/
theorem C2_seconds_amended_witness :
    (initCM [] "ckpt" IntervalType.SECONDS 10 false).interval_type = IntervalType.SECONDS ∧
    (5 : Int) - (initCM [] "ckpt" IntervalType.SECONDS 10 false).begin
      < (initCM [] "ckpt" IntervalType.SECONDS 10 false).interval ∧
    localDue (initCM [] "ckpt" IntervalType.SECONDS 10 false) 5 = false ∧
    (save (initCM [] "ckpt" IntervalType.SECONDS 10 false) 0 false 5 0 5).persisted = none ∧
    (0 : Int) < (initCM [] "ckpt" IntervalType.SECONDS 10 false).interval ∧
    localDue (reset (initCM [] "ckpt" IntervalType.SECONDS 10 false) 42) 42 = false := by
  have h1 := (C2_seconds_amended).1 (initCM [] "ckpt" IntervalType.SECONDS 10 false)
    0 5 0 5 rfl (by decide) (fun w hw => Option.noConfusion hw)
  have h2 := (C2_seconds_amended).2 (initCM [] "ckpt" IntervalType.SECONDS 10 false)
    42 (by decide)
  exact ⟨rfl, by decide, h1.1, h1.2, by decide, h2⟩

/-- Counterexample to C2 as stated: the parenthetical of the claim "or
since coordinator construction, if no reset has yet occurred" fails.
`__init__` sets `begin = 0` (line 73), not the construction-time
clock reading.  For a coordinator constructed when the monotonic
clock reads 100 (interval 10), the very first check — zero seconds
after construction — already finds `now - begin = 100 - 0 >= 10`
true, and the save call treats the step as locally due (it starts a
vote carrying 1). -/
theorem C2_counterexample :
    (initCM [] "ckpt" IntervalType.SECONDS 10 false).begin = 0 ∧
    localDue (initCM [] "ckpt" IntervalType.SECONDS 10 false) 100 = true ∧
    (save (initCM [] "ckpt" IntervalType.SECONDS 10 false) 0 false 100 0 100
      ).state.tstore.getD 0 0 = 1 := by
  exact ⟨rfl, by decide, by decide⟩

/-- Counterexample to C3 as stated: in IDLE SECONDS state the code
starts the reduction even when the local clock says the interval has
NOT elapsed — the `dist.all_reduce` on line 106 is unconditioned on
`doit`.  Fresh coordinator, interval 10, checked at time 5: not
locally due, yet a vote is started. -/
theorem C3_counterexample :
    localDue (initCM [] "ckpt" IntervalType.SECONDS 10 false) 5 = false ∧
    (save (initCM [] "ckpt" IntervalType.SECONDS 10 false) 0 false 5 0 5).voteStarted
      = true := by
  exact ⟨by decide, rfl⟩

/-- C3 (amended): in SECONDS mode with no vote outstanding, a
non-forced `save` with a configured folder always starts the
non-blocking group-wide reduction — whether or not the local interval
has elapsed — over the fresh 0/1 tensor whose value is 1 iff the
local clock says `now - begin >= interval`; it transitions to
`VOTE_PENDING` (the handle is the fresh tensor) and returns without
waiting and without persisting. -/
theorem C3_idle_starts_vote_amended (cm : CMState) (s now o n2 : Int)
    (ht : cm.interval_type = IntervalType.SECONDS) (hw : cm.work = none)
    (hf : ¬cm.folder = "") :
    (save cm s false now o n2).voteStarted = true ∧
    (save cm s false now o n2).persisted = none ∧
    (save cm s false now o n2).waited = false ∧
    (save cm s false now o n2).state.work = some cm.tstore.length ∧
    (save cm s false now o n2).state.doit = some cm.tstore.length ∧
    (save cm s false now o n2).state.tstore.getD cm.tstore.length 0
      = (if localDue cm now then 1 else 0) := by
  rw [save_sec_idle cm s now o n2 hf ht hw]
  exact ⟨rfl, rfl, rfl, rfl, rfl, getD_append_self _ _ _⟩

/-- Witness for C3 (amended): fresh coordinator, locally due at time
100: the vote is started on tensor 0 holding 1. -/
theorem C3_idle_starts_vote_amended_witness :
    (initCM [] "ckpt" IntervalType.SECONDS 10 false).interval_type = IntervalType.SECONDS ∧
    (initCM [] "ckpt" IntervalType.SECONDS 10 false).work = none ∧
    ¬(initCM [] "ckpt" IntervalType.SECONDS 10 false).folder = "" ∧
    (save (initCM [] "ckpt" IntervalType.SECONDS 10 false) 0 false 100 0 100).voteStarted
      = true ∧
    (save (initCM [] "ckpt" IntervalType.SECONDS 10 false) 0 false 100 0 100).state.work
      = some 0 := by
  have h := C3_idle_starts_vote_amended (initCM [] "ckpt" IntervalType.SECONDS 10 false)
    0 100 0 100 rfl rfl (by decide)
  exact ⟨rfl, rfl, by decide, h.1, h.2.2.2.1⟩

/-- C6: on every save that reaches persistence, the mapping handed to
the persistence engine is narrowed exactly when
`force and model_weights_only`: then it is the singleton model entry;
otherwise it is the full registry, containing the model entry, the
optimizer entry, and every other (auxiliary) entry of the registry. -/
theorem C6_weights_only_mapping (cm : CMState) (s : Int) (f : Bool) (now o n2 : Int)
    (mv ov : Entry)
    (hm : dictLookup cm.states "model" = some mv)
    (ho : dictLookup cm.states "optimizer" = some ov) :
    ∀ (m : Dict Entry) (cid : String),
      (save cm s f now o n2).persisted = some (m, cid) →
      ((f && cm.model_weights_only) = true → m = [("model", mv)]) ∧
      ((f && cm.model_weights_only) = false →
        m = cm.states ∧ dictLookup m "model" = some mv ∧
          dictLookup m "optimizer" = some ov) := by
  intro m cid h
  have hs := (save_persisted_shape cm s f now o n2 m cid h).1
  constructor
  · intro hwo
    rw [hs, if_pos hwo]
    simp [narrowToModel, hm]
  · intro hwo
    rw [hs, if_neg (by simp [hwo])]
    exact ⟨rfl, hm, ho⟩

/-- Witness for C6: a coordinator with one auxiliary entry and
`model_weights_only = true`: the forced save persists exactly the
model singleton (by the claim theorem applied at that input), and the
non-forced due save persists the full registry. -/
theorem C6_weights_only_mapping_witness :
    dictLookup (initCM [("aux1", Entry.aux 7)] "ckpt" IntervalType.STEPS 3 true).states
      "model" = some Entry.ModelWrapper ∧
    dictLookup (initCM [("aux1", Entry.aux 7)] "ckpt" IntervalType.STEPS 3 true).states
      "optimizer" = some Entry.OptimizerWrapper ∧
    (save (initCM [("aux1", Entry.aux 7)] "ckpt" IntervalType.STEPS 3 true) 7 true 0 0 0
      ).persisted = some ([("model", Entry.ModelWrapper)], "ckpt/step-7") ∧
    (save (initCM [("aux1", Entry.aux 7)] "ckpt" IntervalType.STEPS 3 false) 6 false 0 0 0
      ).persisted = some ([("aux1", Entry.aux 7), ("model", Entry.ModelWrapper),
        ("optimizer", Entry.OptimizerWrapper)], "ckpt/step-6") ∧
    [("model", Entry.ModelWrapper)] = [(("model" : String), Entry.ModelWrapper)] := by
  refine ⟨by decide, by decide, by decide, by decide, ?_⟩
  exact (C6_weights_only_mapping
    (initCM [("aux1", Entry.aux 7)] "ckpt" IntervalType.STEPS 3 true) 7 true 0 0 0
    Entry.ModelWrapper Entry.OptimizerWrapper (by decide) (by decide)
    [("model", Entry.ModelWrapper)] "ckpt/step-7" (by decide)).1 (by decide)

/-- C7: `load(-1)` with a configured, existing folder scans the
folder entries, collecting the numeric value of every entry whose
name matches `step-(\d+)` anywhere in it; if none matches it returns
false without invoking restore, otherwise it resolves to the maximum
collected value (a member of and upper bound on the collected list)
and restores the checkpoint id of that step. -/
theorem C7_load_latest (cm : CMState) (fs : FS)
    (hf : ¬cm.folder = "") (hd : fs.dirs.contains cm.folder = true) :
    (fs.entries.filterMap findStepNum = [] →
      load cm fs (-1) = { state := cm, ret := false, restored := none }) ∧
    (∀ (c : Nat) (cs : List Nat), fs.entries.filterMap findStepNum = c :: cs →
      (load cm fs (-1)).ret = true ∧
      (load cm fs (-1)).restored =
        some (create_checkpoint_id cm.folder (Int.ofNat (cs.foldl max c))) ∧
      cs.foldl max c ∈ c :: cs ∧ (∀ x ∈ c :: cs, x ≤ cs.foldl max c)) := by
  constructor
  · intro he
    unfold load
    simp [hf, hd, he]
  · intro c cs he
    unfold load
    simp only [hf, hd, he]
    refine ⟨by simp, by simp, (foldl_max_spec cs c).1, (foldl_max_spec cs c).2⟩

/-- Witness for C7 at the example given in the spec: a folder listing
`step-5`, `step-12`, `step-7` resolves to step 12. -/
theorem C7_load_latest_witness :
    ¬(initCM [] "ckpt" IntervalType.SECONDS 10 false).folder = "" ∧
    (FS.mk ["ckpt"] ["step-5", "step-12", "step-7"]).dirs.contains
      (initCM [] "ckpt" IntervalType.SECONDS 10 false).folder = true ∧
    (FS.mk ["ckpt"] ["step-5", "step-12", "step-7"]).entries.filterMap findStepNum
      = [5, 12, 7] ∧
    (load (initCM [] "ckpt" IntervalType.SECONDS 10 false)
      (FS.mk ["ckpt"] ["step-5", "step-12", "step-7"]) (-1)).ret = true ∧
    (load (initCM [] "ckpt" IntervalType.SECONDS 10 false)
      (FS.mk ["ckpt"] ["step-5", "step-12", "step-7"]) (-1)).restored
      = some "ckpt/step-12" := by
  have h := (C7_load_latest (initCM [] "ckpt" IntervalType.SECONDS 10 false)
    (FS.mk ["ckpt"] ["step-5", "step-12", "step-7"]) (by decide) (by decide)).2
    5 [12, 7] (by decide)
  refine ⟨by decide, by decide, by decide, h.1, ?_⟩
  rw [h.2.1]
  decide

/-- C8: for an explicit step, `load` returns false — no exception,
registry and coordinator state untouched, restore never invoked —
whenever the folder is unconfigured, the folder does not exist, or
the subdirectory of the step does not exist. -/
theorem C8_load_missing (cm : CMState) (fs : FS) (s : Int) (hs : ¬s = -1)
    (h : cm.folder = "" ∨ fs.dirs.contains cm.folder = false ∨
      fs.dirs.contains (create_checkpoint_id cm.folder s) = false) :
    load cm fs s = { state := cm, ret := false, restored := none } := by
  unfold load
  by_cases hfold : cm.folder = ""
  · rw [if_pos hfold]
  · rw [if_neg hfold]
    rcases h with h | h | h
    · exact absurd h hfold
    · rw [if_pos (by rw [h]; rfl)]
    · by_cases hd : fs.dirs.contains cm.folder = true
      · rw [if_neg (by simp; simpa using hd), if_pos (by simp [hs]; simpa using h)]
      · have hdf : fs.dirs.contains cm.folder = false := by simpa using hd
        rw [if_pos (by rw [hdf]; rfl)]

/-- Witness for C8: `load 3` on a folder that exists but lacks
`step-3` returns false, state unchanged, restore not invoked. -/
theorem C8_load_missing_witness :
    ¬(3 : Int) = -1 ∧
    (FS.mk ["ckpt", "ckpt/step-5"] ["step-5"]).dirs.contains
      (create_checkpoint_id "ckpt" 3) = false ∧
    load (initCM [] "ckpt" IntervalType.SECONDS 10 false)
      (FS.mk ["ckpt", "ckpt/step-5"] ["step-5"]) 3 =
      { state := initCM [] "ckpt" IntervalType.SECONDS 10 false
        ret := false, restored := none } := by
  refine ⟨by decide, by decide, ?_⟩
  exact C8_load_missing (initCM [] "ckpt" IntervalType.SECONDS 10 false)
    (FS.mk ["ckpt", "ckpt/step-5"] ["step-5"]) 3 (by decide)
    (Or.inr (Or.inr (by decide)))

/-- C10: `__init__` mutates the caller-supplied `states` dict in
place: in the store-passing model, the cell the caller reference
points to gets `model` and `optimizer` inserted (overwriting any
caller entries under those names), every other cell is untouched, and
the coordinator retains the very same reference as its registry, so
caller dict and registry alias. -/
theorem C10_init_alias (h : RefModel.Heap) (r : Nat) (folder : String)
    (it : IntervalType) (iv : Int) (mwo : Bool) (hr : r < h.cells.length) :
    (RefModel.initCMRef h r folder it iv mwo).1.statesRef = r ∧
    (RefModel.initCMRef h r folder it iv mwo).2.get r =
      dictInsert (dictInsert (h.get r) "model" Entry.ModelWrapper)
        "optimizer" Entry.OptimizerWrapper ∧
    dictLookup ((RefModel.initCMRef h r folder it iv mwo).2.get r) "model"
      = some Entry.ModelWrapper ∧
    dictLookup ((RefModel.initCMRef h r folder it iv mwo).2.get r) "optimizer"
      = some Entry.OptimizerWrapper ∧
    (∀ r2, ¬r2 = r → (RefModel.initCMRef h r folder it iv mwo).2.get r2 = h.get r2) := by
  have hcell : (RefModel.initCMRef h r folder it iv mwo).2.get r =
      dictInsert (dictInsert (h.get r) "model" Entry.ModelWrapper)
        "optimizer" Entry.OptimizerWrapper := by
    unfold RefModel.initCMRef RefModel.Heap.get RefModel.Heap.put
    exact getD_set_self _ _ _ _ hr
  refine ⟨rfl, hcell, ?_, ?_, ?_⟩
  · rw [hcell, dictLookup_dictInsert_ne _ _ _ _ (by decide),
      dictLookup_dictInsert_self]
  · rw [hcell, dictLookup_dictInsert_self]
  · intro r2 hr2
    unfold RefModel.initCMRef RefModel.Heap.get RefModel.Heap.put
    exact getD_set_ne _ _ _ _ _ (fun he => hr2 he.symm)

/-- Witness for C10: a caller dict already holding a `model` entry
(an auxiliary payload) at cell 0 of a two-cell heap: after
construction the coordinator holds cell 0, the caller
`model` entry is overwritten by the `ModelWrapper`, `optimizer` is
appended, and cell 1 is untouched. -/
theorem C10_init_alias_witness :
    0 < (RefModel.Heap.mk [[("model", Entry.aux 1), ("k", Entry.aux 2)],
      [("other", Entry.aux 3)]]).cells.length ∧
    (RefModel.initCMRef (RefModel.Heap.mk [[("model", Entry.aux 1), ("k", Entry.aux 2)],
      [("other", Entry.aux 3)]]) 0 "ckpt" IntervalType.STEPS 3 false).1.statesRef = 0 ∧
    (RefModel.initCMRef (RefModel.Heap.mk [[("model", Entry.aux 1), ("k", Entry.aux 2)],
      [("other", Entry.aux 3)]]) 0 "ckpt" IntervalType.STEPS 3 false).2.get 0 =
      [("model", Entry.ModelWrapper), ("k", Entry.aux 2),
        ("optimizer", Entry.OptimizerWrapper)] ∧
    (RefModel.initCMRef (RefModel.Heap.mk [[("model", Entry.aux 1), ("k", Entry.aux 2)],
      [("other", Entry.aux 3)]]) 0 "ckpt" IntervalType.STEPS 3 false).2.get 1 =
      [("other", Entry.aux 3)] := by
  have h := C10_init_alias (RefModel.Heap.mk [[("model", Entry.aux 1), ("k", Entry.aux 2)],
    [("other", Entry.aux 3)]]) 0 "ckpt" IntervalType.STEPS 3 false (by decide)
  refine ⟨by decide, h.1, ?_, h.2.2.2.2 1 (by decide)⟩
  rw [h.2.1]
  decide

/-- Well-formedness of the vote state: a pending reduction handle
points at a previously allocated tensor. -/
def workIdxOk (cm : CMState) : Prop :=
  ∀ w, cm.work = some w → w < cm.tstore.length

/-- A freshly constructed coordinator is well-formed (no pending
vote), so the hypothesis of the C2 theorem holds at construction. -/
theorem workIdxOk_initCM (states : Dict Entry) (folder : String)
    (it : IntervalType) (iv : Int) (mwo : Bool) :
    workIdxOk (initCM states folder it iv mwo) := by
  intro w hw
  exact Option.noConfusion hw

/-- Every `save` call preserves well-formedness, so the hypothesis of
the C2 theorem holds in every reachable state. -/
theorem workIdxOk_save (cm : CMState) (s : Int) (f : Bool) (now o n2 : Int)
    (hp : workIdxOk cm) : workIdxOk (save cm s f now o n2).state := by
  intro w2 hw2
  by_cases hfold : cm.folder = ""
  · rw [save_no_folder cm s f now o n2 hfold] at hw2 ⊢
    exact hp w2 hw2
  · cases f with
    | true =>
      rw [save_force_eq cm s now o n2 hfold, finishSave_spec] at hw2
      simp at hw2
    | false =>
      cases ht : cm.interval_type with
      | STEPS =>
        by_cases hd : s % cm.interval = 0
        · rw [save_steps_due cm s now o n2 hfold ht hd, finishSave_spec] at hw2
          simp at hw2
        · rw [save_steps_skip cm s now o n2 hfold ht hd] at hw2 ⊢
          exact hp w2 hw2
      | SECONDS =>
        cases hw : cm.work with
        | none =>
          rw [save_sec_idle cm s now o n2 hfold ht hw] at hw2 ⊢
          simp at hw2 ⊢
          omega
        | some w =>
          by_cases hc : s % 5 = 4
          · rw [save_sec_cadence cm s now o n2 w hfold ht hw hc] at hw2
            split at hw2 <;> split at hw2 <;> simp [finishSave_spec] at hw2
          · rw [save_sec_backpressure cm s now o n2 w hfold ht hw hc] at hw2 ⊢
            simp at hw2 ⊢
            have := hp w2 hw2
            omega
